import Mathlib

/-!
# cscribe: the PortAudio callback and the transport commands

A shallow embedding of `cscribe.c`.

* The callback is embedded twice. `pa_iter32`, `pa_loop32` and `pa_callback32` carry the
  C types: `size`, `read`, `frames_left` and `pos` are 32-bit `int`, so the 64-bit
  difference `sf_info.frames - pos` is narrowed at line 83, `frame_cnt` (an
  `unsigned long`) is narrowed at line 77, and `int` results wrap in two's complement
  (`wrap32`). `pa_iter`, `pa_loop` and `pa_callback` compute the same body over unbounded
  `Int`; `pa_callback32_eq` shows that the two agree whenever the frame count and the
  request are below `2^31`, and `pa_iter_int_range` that an iteration started inside the
  range of `int` stays inside it. The seek commands work on small `int` values and are
  embedded over `Int`.
* `float` values (the tempo) are exact rationals.
* The two threads are not modelled: every function is a transformer of the globals it
  touches. Terminal output (`show_song_info`, `show_progress_bar`) and the display-only
  `pbar` record are left out; they write no field of `audio_data` or `current_song`.
* libsndfile is modelled by its documented contract: `sf_seek` moves the read offset of an
  open handle, `sf_readf_int` copies whole interleaved frames to memory and returns how
  many it copied.
-/

namespace Cscribe

/-! ## Constants and macros -/

/-- The constant `#define TEMPO_DELTA .05`. -/
def TEMPO_DELTA : ℚ := 1 / 20

/-- The constant `#define TIME_DELTA 2`. -/
def TIME_DELTA : Int := 2

/-- The macro `MIN(a,b)` of `<sys/param.h>`: `(((a)<(b))?(a):(b))`. -/
def MIN {α : Type} [LinearOrder α] (a b : α) : α := if a < b then a else b

/-- The macro `MAX(a,b)` of `<sys/param.h>`: `(((a)>(b))?(a):(b))`. -/
def MAX {α : Type} [LinearOrder α] (a b : α) : α := if a > b then a else b

/-! ## Data model -/

/-- The fields of libsndfile's `SF_INFO` that the program reads or writes. -/
structure SF_INFO where
  frames : Int
  samplerate : Int
  channels : Int
  format : Int

/-- An open libsndfile handle: the stream properties, the decoded interleaved samples
(sample `j` of frame `f` is `samples (f * channels + j)`) and the current read offset in
frames. -/
structure SNDFILE where
  info : SF_INFO
  samples : Int → Int
  offset : Int

/-- The record `struct pa_data`; `sndfile` is `none` for the `NULL` handle. -/
structure pa_data where
  sndfile : Option SNDFILE
  sf_info : SF_INFO
  pos : Int

/-- The record `struct song`; `name` is `none` for `NULL`. -/
structure song where
  len : Int
  time : Int
  mark : Int
  tempo : ℚ
  name : Option String

/-- The global variables the modelled functions read or write. -/
structure Globals where
  audio_data : pa_data
  current_song : song
  quit : Bool

/-- Static storage is zero-initialised. -/
def zero_info : SF_INFO := { frames := 0, samplerate := 0, channels := 0, format := 0 }

/-- The globals at program start (all zero). -/
def startup : Globals :=
  { audio_data := { sndfile := none, sf_info := zero_info, pos := 0 }
    current_song := { len := 0, time := 0, mark := 0, tempo := 0, name := none }
    quit := false }

/-- What `main` does to `current_song` when one file name is given (`argc == 2`). -/
def main_args (audio_name : String) (g : Globals) : Globals :=
  { g with current_song :=
      { g.current_song with name := some audio_name, len := 200, tempo := 1 } }

/-! ## libsndfile -/

/-- Library routine `sf_seek(sndfile, frames, SEEK_SET)`: sets the read offset when the
target lies in `0 .. frames`; otherwise (or on a `NULL` handle) nothing changes. -/
def sf_seek (sndfile : Option SNDFILE) (frames : Int) : Option SNDFILE :=
  match sndfile with
  | none => none
  | some f =>
    if 0 ≤ frames ∧ frames ≤ f.info.frames then some { f with offset := frames } else some f

/-- Library routine `sf_readf_int(sndfile, ptr, frames)`: copies up to `frames` whole frames,
as many as remain after the read offset, to the `int` cells starting at `ptr`, advances the
offset and returns the number of frames copied. Memory is a map from cell index to value.
A `NULL` handle copies nothing. -/
def sf_readf_int (sndfile : Option SNDFILE) (mem : Int → Int) (ptr : Int) (frames : Int) :
    Option SNDFILE × (Int → Int) × Int :=
  match sndfile with
  | none => (none, mem, 0)
  | some f =>
    let n := max 0 (min frames (f.info.frames - f.offset))
    (some { f with offset := f.offset + n },
     fun i =>
       if ptr ≤ i ∧ i < ptr + n * f.info.channels then
         f.samples (f.offset * f.info.channels + (i - ptr))
       else mem i,
     n)

/-! ## `pa_callback` -/

/-- The variables of `pa_callback` that live across loop iterations: the callback data,
the memory at `output_buf` (indexed in `int` cells), `cursor` as an offset from `out` in
`int` cells, and `size`. -/
structure CbState where
  cb_data : pa_data
  out : Int → Int
  cursor : Int
  size : Int

/-- One iteration of the `while (size > 0)` body (lines 82-95), with the arithmetic over
unbounded `Int`: exact when the frame count and `size` are below `2^31` (`pa_iter32_eq`).
The second component is the library call it makes: the position passed to `sf_seek` and the
frame count `read` passed to `sf_readf_int`. -/
def pa_iter (s : CbState) : CbState × (Int × Int) :=
  let sf1 := sf_seek s.cb_data.sndfile s.cb_data.pos
  let frames_left := s.cb_data.sf_info.frames - s.cb_data.pos
  let read := if s.size > frames_left then frames_left else s.size
  let pos1 := if s.size > frames_left then 0 else s.cb_data.pos + read
  let r := sf_readf_int sf1 s.out s.cursor read
  ({ cb_data := { s.cb_data with sndfile := r.1, pos := pos1 }
     out := r.2.1
     cursor := s.cursor + read
     size := s.size - read },
   (s.cb_data.pos, read))

/-- The `while (size > 0)` loop with a bound on the number of loop tests; `none` when the
bound is reached before the loop exits. Returns the final state and the library calls in
order. -/
def pa_loop : Nat → CbState → Option (CbState × List (Int × Int))
  | 0, _ => none
  | fuel + 1, s =>
    if s.size > 0 then
      match pa_loop fuel (pa_iter s).1 with
      | none => none
      | some r => some (r.1, (pa_iter s).2 :: r.2)
    else some (s, [])

/-- The callback `pa_callback(_, output_buf, frame_cnt, _, _, data)` over unbounded `Int`:
`cursor = out`, `size = frame_cnt`, then the loop. When the loop exits the C function
returns `paContinue`. -/
def pa_callback (fuel : Nat) (data : pa_data) (output_buf : Int → Int) (frame_cnt : Int) :
    Option (CbState × List (Int × Int)) :=
  pa_loop fuel { cb_data := data, out := output_buf, cursor := 0, size := frame_cnt }

/-! ## `pa_callback` with the C integer types -/

/-- The value a 32-bit two's-complement `int` holds when it is given the integer `x`. -/
def wrap32 (x : Int) : Int := (x + 2147483648) % 4294967296 - 2147483648

/-- One iteration of the `while (size > 0)` body (lines 82-95) with the C types:
`frames_left = cb_data->sf_info.frames - cb_data->pos` narrows a 64-bit `sf_count_t` to
`int` (line 83), and `cb_data->pos += read` and `size -= read` are `int` arithmetic. The
pointer `cursor` is not narrowed. The second component is the library call: the position
passed to `sf_seek` and the frame count `read` passed to `sf_readf_int`. -/
def pa_iter32 (s : CbState) : CbState × (Int × Int) :=
  let sf1 := sf_seek s.cb_data.sndfile s.cb_data.pos
  let frames_left := wrap32 (s.cb_data.sf_info.frames - s.cb_data.pos)
  let read := if s.size > frames_left then frames_left else s.size
  let pos1 := if s.size > frames_left then 0 else wrap32 (s.cb_data.pos + read)
  let r := sf_readf_int sf1 s.out s.cursor read
  ({ cb_data := { s.cb_data with sndfile := r.1, pos := pos1 }
     out := r.2.1
     cursor := s.cursor + read
     size := wrap32 (s.size - read) },
   (s.cb_data.pos, read))

/-- The `while (size > 0)` loop over `pa_iter32`, with a bound on the number of loop tests;
`none` when the bound is reached before the loop exits. -/
def pa_loop32 : Nat → CbState → Option (CbState × List (Int × Int))
  | 0, _ => none
  | fuel + 1, s =>
    if s.size > 0 then
      match pa_loop32 fuel (pa_iter32 s).1 with
      | none => none
      | some r => some (r.1, (pa_iter32 s).2 :: r.2)
    else some (s, [])

/-- The callback with the C types: `int size = frame_cnt` narrows the `unsigned long`
request (line 77), then the loop runs. -/
def pa_callback32 (fuel : Nat) (data : pa_data) (output_buf : Int → Int) (frame_cnt : Int) :
    Option (CbState × List (Int × Int)) :=
  pa_loop32 fuel { cb_data := data, out := output_buf, cursor := 0, size := wrap32 frame_cnt }

/-! ## Transport commands -/

/-- The function `seek_seconds(n)` (line 125). -/
def seek_seconds (n : Int) (g : Globals) : Globals :=
  { g with current_song :=
      { g.current_song with time := MIN (MAX n 0) g.current_song.len } }

/-- The function `set_mark(n)` (line 132). -/
def set_mark (n : Int) (g : Globals) : Globals :=
  { g with current_song := { g.current_song with mark := n } }

/-- The function `set_tempo(f)` (line 138). -/
def set_tempo (f : ℚ) (g : Globals) : Globals :=
  { g with current_song := { g.current_song with tempo := MAX 0 f } }

/-- The `switch (ch)` of `show_main` (lines 207-232). Key `h` opens the help screen, which
changes no modelled field; unlisted keys do nothing. The apostrophe key has code 39. The
`redraw_flag` test before the switch is left out: nothing ever sets the flag. -/
def key_command (ch : Char) (g : Globals) : Globals :=
  if ch = Char.ofNat 39 then seek_seconds g.current_song.mark g
  else if ch = '<' then set_tempo (g.current_song.tempo - TEMPO_DELTA) g
  else if ch = '>' then set_tempo (g.current_song.tempo + TEMPO_DELTA) g
  else if ch = 'q' then { g with quit := true }
  else if ch = 'j' then seek_seconds (g.current_song.time - TIME_DELTA) g
  else if ch = 'k' then seek_seconds (g.current_song.time + TIME_DELTA) g
  else if ch = 'm' then set_mark g.current_song.time g
  else g

/-- The part of `init_audio` before the stream starts (lines 281-283): `pos = 0`,
`format = 0`, then `sf_open`, whose outcome is the argument `opened`: a handle, whose
properties are stored in `sf_info`, or `none` on failure, when `sf_info` keeps its other
fields. -/
def init_audio (opened : Option SNDFILE) (g : Globals) : Globals :=
  match opened with
  | some f =>
    { g with audio_data := { sndfile := some { f with offset := 0 }, sf_info := f.info, pos := 0 } }
  | none =>
    { g with audio_data :=
        { sndfile := none, sf_info := { g.audio_data.sf_info with format := 0 }, pos := 0 } }

/-- A sequence of `seek_seconds` calls; each argument may depend on the globals at the time
of the call (as in `seek_seconds(current_song.time + TIME_DELTA)`). -/
def run_seeks : List (Globals → Int) → Globals → Globals
  | [], g => g
  | f :: fs, g => run_seeks fs (seek_seconds (f g) g)

/-! ## Concrete sources and buffers -/

/-- A handle on a file of `D` frames with `c` channels at `rate` frames per second whose
sample at index `i` is `10 * (frame + 1) + channel`. -/
def tone (D c rate : Int) : SNDFILE :=
  { info := { frames := D, samplerate := rate, channels := c, format := 0 }
    samples := fun i => 10 * (i / c + 1) + i % c
    offset := 0 }

/-- Callback data for an open handle with the engine position `pos`. -/
def playing (f : SNDFILE) (pos : Int) : pa_data :=
  { sndfile := some f, sf_info := f.info, pos := pos }

/-- An output buffer holding `-1` in every cell. -/
def blank : Int → Int := fun _ => -1

/-! ## States used in the statements -/

/-- The globals after `main` has stored a file name: length 200, tempo 1. -/
def loaded : Globals := main_args "song.wav" startup

/-- The globals once `init_audio` has opened a file of 100 frames at 10 frames per second
and the user has then sought to second 8. -/
def sought8 : Globals := seek_seconds 8 (init_audio (some (tone 100 1 10)) loaded)

/-- The globals when the engine position of the same file is 80 and the user seeks to
second 8. -/
def sought8_at80 : Globals :=
  seek_seconds 8 { loaded with audio_data := playing (tone 100 1 10) 80 }

/-- From the spec's looping property: the buffer a request that starts `k` frames before
the end must yield. Cell `i` holds the last `k` frames of the source (frames `D-k .. D-1`,
`k * c` cells), then the frames read from offset 0 of the looping source. -/
def spec_looped_output (f : SNDFILE) (k : Int) (i : Int) : Int :=
  if i < k * f.info.channels then f.samples ((f.info.frames - k) * f.info.channels + i)
  else f.samples ((i - k * f.info.channels) % (f.info.frames * f.info.channels))

/-- The callback data hold an open handle on the samples `smp` whose properties are the
ones stored in `sf_info`. -/
def handle_of (s : CbState) (smp : Int → Int) : Prop :=
  ∃ off, s.cb_data.sndfile = some { info := s.cb_data.sf_info, samples := smp, offset := off }

/-! ## Transport commands: proofs -/

theorem seek_seconds_time (n : Int) (g : Globals) :
    (seek_seconds n g).current_song.time = min (max n 0) g.current_song.len := by
  simp only [seek_seconds, MIN, MAX]
  split_ifs <;> omega

theorem seek_seconds_keeps (n : Int) (g : Globals) :
    (seek_seconds n g).audio_data = g.audio_data ∧
    (seek_seconds n g).current_song.len = g.current_song.len ∧
    (seek_seconds n g).current_song.mark = g.current_song.mark ∧
    (seek_seconds n g).current_song.tempo = g.current_song.tempo ∧
    (seek_seconds n g).quit = g.quit :=
  ⟨rfl, rfl, rfl, rfl, rfl⟩

theorem run_seeks_keeps (fs : List (Globals → Int)) (g : Globals) :
    (run_seeks fs g).audio_data = g.audio_data ∧
    (run_seeks fs g).current_song.len = g.current_song.len ∧
    (run_seeks fs g).current_song.mark = g.current_song.mark := by
  induction fs generalizing g with
  | nil => exact ⟨rfl, rfl, rfl⟩
  | cons f fs ih => exact ih (seek_seconds (f g) g)

theorem key_apostrophe (g : Globals) :
    key_command (Char.ofNat 39) g = seek_seconds g.current_song.mark g := by
  simp [key_command]

theorem key_j (g : Globals) :
    key_command 'j' g = seek_seconds (g.current_song.time - TIME_DELTA) g := by
  have h : ¬ ('j' = Char.ofNat 39) := by decide
  simp [key_command, h]

theorem key_k (g : Globals) :
    key_command 'k' g = seek_seconds (g.current_song.time + TIME_DELTA) g := by
  have h : ¬ ('k' = Char.ofNat 39) := by decide
  simp [key_command, h]

theorem key_m (g : Globals) : key_command 'm' g = set_mark g.current_song.time g := by
  have h : ¬ ('m' = Char.ofNat 39) := by decide
  simp [key_command, h]

theorem key_lt (g : Globals) :
    key_command '<' g = set_tempo (g.current_song.tempo - TEMPO_DELTA) g := by
  have h : ¬ ('<' = Char.ofNat 39) := by decide
  simp [key_command, h]

theorem key_gt (g : Globals) :
    key_command '>' g = set_tempo (g.current_song.tempo + TEMPO_DELTA) g := by
  have h : ¬ ('>' = Char.ofNat 39) := by decide
  simp [key_command, h]

/-- C3, as stated, fails: with the song length 200 that `main` stores, `seek_seconds(200)`
stores `time = 200`, which is not below the length; so does key `k` pressed at time 199. -/
theorem seek_reaches_len :
    loaded.current_song.len = 200 ∧
    (seek_seconds 200 loaded).current_song.time = 200 ∧
    ¬ ((seek_seconds 200 loaded).current_song.time < loaded.current_song.len) ∧
    (key_command 'k' (seek_seconds 199 loaded)).current_song.time = 200 := by
  decide

/-- C3, amended: for every song length `len > 0` and every integer `n`, after
`seek_seconds(n)` the stored time satisfies `0 <= time <= len`; it is `n` clamped to that
closed range, so every `n >= len` stores `len` itself. The same bounds hold after the
relative commands `j` and `k`. -/
theorem seek_clamps_closed (g : Globals) (n : Int) (hlen : 0 < g.current_song.len) :
    (0 ≤ (seek_seconds n g).current_song.time ∧
      (seek_seconds n g).current_song.time ≤ g.current_song.len) ∧
    (g.current_song.len ≤ n → (seek_seconds n g).current_song.time = g.current_song.len) ∧
    (n ≤ 0 → (seek_seconds n g).current_song.time = 0) ∧
    (0 ≤ n → n ≤ g.current_song.len → (seek_seconds n g).current_song.time = n) ∧
    (0 ≤ (key_command 'j' g).current_song.time ∧
      (key_command 'j' g).current_song.time ≤ g.current_song.len) ∧
    (0 ≤ (key_command 'k' g).current_song.time ∧
      (key_command 'k' g).current_song.time ≤ g.current_song.len) := by
  rw [key_j, key_k]
  simp only [seek_seconds_time]
  omega

theorem seek_clamps_closed_witness :
    0 < loaded.current_song.len ∧
    (0 ≤ (seek_seconds 250 loaded).current_song.time ∧
      (seek_seconds 250 loaded).current_song.time ≤ loaded.current_song.len) ∧
    (seek_seconds 250 loaded).current_song.time = 200 := by
  have h := seek_clamps_closed loaded 250 (by decide)
  exact ⟨by decide, h.1, by decide⟩

/-- C5: for every song length and every current time `p` with `0 <= p <= len`, key `m`
(`set_mark(current_song.time)`), then any finite sequence of `seek_seconds` calls, then the
jump-to-mark key (`seek_seconds(current_song.mark)`) leaves `current_song.time == p`. -/
theorem mark_round_trip (g : Globals) (fs : List (Globals → Int))
    (h0 : 0 ≤ g.current_song.time) (h1 : g.current_song.time ≤ g.current_song.len) :
    (key_command (Char.ofNat 39) (run_seeks fs (key_command 'm' g))).current_song.time =
      g.current_song.time := by
  rw [key_apostrophe, seek_seconds_time, key_m]
  obtain ⟨-, hl, hm⟩ := run_seeks_keeps fs (set_mark g.current_song.time g)
  rw [hl, hm]
  simp only [set_mark]
  omega

theorem mark_round_trip_witness :
    (0 : Int) ≤ (seek_seconds 45 loaded).current_song.time ∧
    (seek_seconds 45 loaded).current_song.time ≤ (seek_seconds 45 loaded).current_song.len ∧
    (seek_seconds 45 loaded).current_song.time = 45 ∧
    (run_seeks [fun _ => 0] (key_command 'm' (seek_seconds 45 loaded))).current_song.time = 0 ∧
    (key_command (Char.ofNat 39)
      (run_seeks [fun _ => 0] (key_command 'm' (seek_seconds 45 loaded)))).current_song.time =
        (seek_seconds 45 loaded).current_song.time :=
  ⟨by decide, by decide, by decide, by decide,
    mark_round_trip (seek_seconds 45 loaded) [fun _ => 0] (by decide) (by decide)⟩

/-- C6, as stated, fails: at time 45 with no mark set (`mark == 0`) and length 200 the
jump-to-mark key stores `time = 0`, not 45. -/
theorem jump_unset_mark_moves :
    (seek_seconds 45 loaded).current_song.mark = 0 ∧
    (seek_seconds 45 loaded).current_song.time = 45 ∧
    (key_command (Char.ofNat 39) (seek_seconds 45 loaded)).current_song.time = 0 ∧
    (key_command (Char.ofNat 39) (seek_seconds 45 loaded)).current_song.time ≠
      (seek_seconds 45 loaded).current_song.time := by
  decide

/-- C6, amended: when `current_song.mark == 0` and the length is not negative, the
jump-to-mark key stores `time = 0` whatever the current time `t` was; the time is left
unchanged exactly when `t` was already 0. Mark, length and tempo are not written. -/
theorem jump_unset_mark_zero (g : Globals) (hmark : g.current_song.mark = 0)
    (hlen : 0 ≤ g.current_song.len) :
    (key_command (Char.ofNat 39) g).current_song.time = 0 ∧
    ((key_command (Char.ofNat 39) g).current_song.time = g.current_song.time ↔
      g.current_song.time = 0) ∧
    (key_command (Char.ofNat 39) g).current_song.mark = 0 ∧
    (key_command (Char.ofNat 39) g).current_song.len = g.current_song.len ∧
    (key_command (Char.ofNat 39) g).current_song.tempo = g.current_song.tempo := by
  rw [key_apostrophe]
  refine ⟨?_, ?_, hmark, rfl, rfl⟩
  · rw [seek_seconds_time]; omega
  · rw [seek_seconds_time]; omega

theorem jump_unset_mark_zero_witness :
    (seek_seconds 45 loaded).current_song.mark = 0 ∧
    (0 : Int) ≤ (seek_seconds 45 loaded).current_song.len ∧
    (seek_seconds 45 loaded).current_song.time = 45 ∧
    (key_command (Char.ofNat 39) (seek_seconds 45 loaded)).current_song.time = 0 :=
  ⟨by decide, by decide, by decide,
    (jump_unset_mark_zero (seek_seconds 45 loaded) (by decide) (by decide)).1⟩

theorem MAX_zero_rat (f : ℚ) : MAX 0 f = max 0 f := by
  unfold MAX
  split_ifs with h
  · exact (max_eq_left (le_of_lt h)).symm
  · exact (max_eq_right (not_lt.mp h)).symm

/-- C7: with the tempo taken as an exact rational, `set_tempo(t + d)` stores
`max(0, t + d)` for every current tempo `t` and every delta `d`; the stored tempo is never
negative after any `set_tempo` call (keys `<` and `>` included), the fields `time`, `mark`
and `len` are unchanged, and from the default tempo 1 a delta of -1000 stores exactly 0. -/
theorem tempo_clamp :
    (∀ (g : Globals) (d : ℚ),
      (set_tempo (g.current_song.tempo + d) g).current_song.tempo =
        max 0 (g.current_song.tempo + d)) ∧
    (∀ (g : Globals) (f : ℚ),
      0 ≤ (set_tempo f g).current_song.tempo ∧
      (set_tempo f g).current_song.time = g.current_song.time ∧
      (set_tempo f g).current_song.mark = g.current_song.mark ∧
      (set_tempo f g).current_song.len = g.current_song.len ∧
      (set_tempo f g).audio_data = g.audio_data) ∧
    (∀ g : Globals,
      (key_command '<' g).current_song.tempo = max 0 (g.current_song.tempo - 1 / 20) ∧
      (key_command '>' g).current_song.tempo = max 0 (g.current_song.tempo + 1 / 20)) ∧
    loaded.current_song.tempo = 1 ∧
    (set_tempo (loaded.current_song.tempo + (-1000)) loaded).current_song.tempo = 0 := by
  refine ⟨fun g d => ?_, fun g f => ⟨?_, rfl, rfl, rfl, rfl⟩, fun g => ⟨?_, ?_⟩, rfl, ?_⟩
  · simp only [set_tempo, MAX_zero_rat]
  · simp only [set_tempo, MAX_zero_rat]
    exact le_max_left 0 f
  · rw [key_lt]
    simp only [set_tempo, MAX_zero_rat, TEMPO_DELTA]
  · rw [key_gt]
    simp only [set_tempo, MAX_zero_rat, TEMPO_DELTA]
  · simp only [set_tempo, MAX_zero_rat]
    have h : loaded.current_song.tempo = 1 := rfl
    rw [h]
    norm_num

/-! ## The callback loop: one iteration -/

theorem pa_iter_info (s : CbState) : (pa_iter s).1.cb_data.sf_info = s.cb_data.sf_info := rfl

theorem pa_iter_pos (s : CbState) :
    (pa_iter s).1.cb_data.pos =
      if s.size > s.cb_data.sf_info.frames - s.cb_data.pos then 0
      else s.cb_data.pos + s.size := by
  simp only [pa_iter]
  split_ifs <;> rfl

theorem pa_iter_size (s : CbState) :
    (pa_iter s).1.size =
      if s.size > s.cb_data.sf_info.frames - s.cb_data.pos then
        s.size - (s.cb_data.sf_info.frames - s.cb_data.pos)
      else 0 := by
  simp only [pa_iter]
  split_ifs <;> omega

theorem pa_iter_call (s : CbState) :
    (pa_iter s).2 =
      (s.cb_data.pos,
        if s.size > s.cb_data.sf_info.frames - s.cb_data.pos then
          s.cb_data.sf_info.frames - s.cb_data.pos
        else s.size) := rfl

theorem pa_iter_cursor (s : CbState) :
    (pa_iter s).1.cursor = s.cursor + (pa_iter s).2.2 := rfl

theorem pa_loop_exit (fuel : Nat) (s : CbState) (h : ¬ s.size > 0) :
    pa_loop (fuel + 1) s = some (s, []) := by
  simp only [pa_loop, if_neg h]

theorem pa_loop_next (fuel : Nat) (s : CbState) (h : s.size > 0) :
    pa_loop (fuel + 1) s =
      (pa_loop fuel (pa_iter s).1).map (fun r => (r.1, (pa_iter s).2 :: r.2)) := by
  simp only [pa_loop, if_pos h]
  cases pa_loop fuel (pa_iter s).1 <;> rfl

/-- Inside the range of `int` one iteration computes only values of that range, so the C
arithmetic of the loop body is exact there. -/
theorem pa_iter_int_range (s : CbState)
    (hp0 : 0 ≤ s.cb_data.pos) (hp1 : s.cb_data.pos ≤ s.cb_data.sf_info.frames)
    (hD : s.cb_data.sf_info.frames < 2 ^ 31) (hs0 : 0 < s.size) (hs1 : s.size < 2 ^ 31) :
    (0 ≤ (pa_iter s).2.2 ∧ (pa_iter s).2.2 < 2 ^ 31) ∧
    (0 ≤ (pa_iter s).1.cb_data.pos ∧ (pa_iter s).1.cb_data.pos < 2 ^ 31) ∧
    (0 ≤ (pa_iter s).1.size ∧ (pa_iter s).1.size < 2 ^ 31) := by
  rw [pa_iter_pos, pa_iter_size, pa_iter_call]
  simp only
  split_ifs <;> omega

/-! ## The callback loop: termination, position and chunks -/

theorem wrap_mod (D x : Int) (hx : 0 ≤ x) (hxD : x < D) : x % D = x :=
  Int.emod_eq_of_lt hx hxD

theorem wrap_shift (D a : Int) : (a + D) % D = a % D := Int.add_emod_self

theorem pa_loop_spec (D : Int) (hD : 0 < D) :
    ∀ (fuel : Nat) (s : CbState), s.cb_data.sf_info.frames = D →
      0 ≤ s.cb_data.pos → s.cb_data.pos ≤ D → 0 ≤ s.size →
      s.size + (if s.cb_data.pos = D then 1 else 0) < (fuel : Int) →
      ∃ r, pa_loop fuel s = some r ∧ r.1.size = 0 ∧
        r.1.cb_data.sf_info = s.cb_data.sf_info ∧
        r.1.cb_data.pos =
          (if 0 < s.size then (s.cb_data.pos + s.size - 1) % D + 1 else s.cb_data.pos) ∧
        (∀ c ∈ r.2, 0 ≤ c.1 ∧ c.1 ≤ D ∧ 0 ≤ c.2 ∧ c.2 ≤ D - c.1) ∧
        (r.2.map Prod.snd).sum = s.size ∧
        r.1.cursor = s.cursor + s.size := by
  intro fuel
  induction fuel with
  | zero =>
    intro s _ _ _ hs hf
    exfalso
    split_ifs at hf <;> simp at hf <;> omega
  | succ fuel ih =>
    intro s hfr hp0 hp1 hs hf
    by_cases hpos : s.size > 0
    · rw [pa_loop_next fuel s hpos]
      by_cases hw : s.size > s.cb_data.sf_info.frames - s.cb_data.pos
      · -- the request runs past the end: read the tail and wrap
        have h1 : (pa_iter s).1.cb_data.pos = 0 := by rw [pa_iter_pos, if_pos hw]
        have h2 : (pa_iter s).1.size = s.size - (D - s.cb_data.pos) := by
          rw [pa_iter_size, if_pos hw, hfr]
        have h3 : (pa_iter s).2 = (s.cb_data.pos, D - s.cb_data.pos) := by
          rw [pa_iter_call, if_pos hw, hfr]
        have h4 : (pa_iter s).1.cursor = s.cursor + (D - s.cb_data.pos) := by
          rw [pa_iter_cursor, h3]
        have hf1 : (pa_iter s).1.size +
            (if (pa_iter s).1.cb_data.pos = D then 1 else 0) < (fuel : Int) := by
          rw [h1, h2, if_neg (by omega)]
          push_cast at hf
          split_ifs at hf <;> omega
        obtain ⟨r, hr, hr0, hri, hrp, hrc, hrs, hrk⟩ :=
          ih (pa_iter s).1 (by rw [pa_iter_info]; exact hfr) (by omega) (by omega)
            (by omega) hf1
        refine ⟨(r.1, (pa_iter s).2 :: r.2), by rw [hr]; rfl, hr0, ?_, ?_, ?_, ?_, ?_⟩
        · rw [hri, pa_iter_info]
        · rw [hrp, h1, h2, if_pos hpos, if_pos (by omega)]
          have e : s.cb_data.pos + s.size - 1 =
              (0 + (s.size - (D - s.cb_data.pos)) - 1) + D := by ring
          rw [e, wrap_shift]
        · intro c hc
          rcases List.mem_cons.mp hc with hc | hc
          · rw [hc, h3]
            simp only
            omega
          · exact hrc c hc
        · simp only [List.map_cons, List.sum_cons, hrs, h2, h3]
          ring
        · show r.1.cursor = s.cursor + s.size
          rw [hrk, h4, h2]
          ring
      · -- the request fits: read it all
        have h1 : (pa_iter s).1.cb_data.pos = s.cb_data.pos + s.size := by
          rw [pa_iter_pos, if_neg hw]
        have h2 : (pa_iter s).1.size = 0 := by rw [pa_iter_size, if_neg hw]
        have h3 : (pa_iter s).2 = (s.cb_data.pos, s.size) := by
          rw [pa_iter_call, if_neg hw]
        have h4 : (pa_iter s).1.cursor = s.cursor + s.size := by
          rw [pa_iter_cursor, h3]
        obtain ⟨k, rfl⟩ : ∃ k, fuel = k + 1 := by
          refine ⟨fuel - 1, ?_⟩
          push_cast at hf
          split_ifs at hf <;> omega
        rw [pa_loop_exit k _ (by rw [h2]; omega)]
        refine ⟨((pa_iter s).1, [(pa_iter s).2]), rfl, h2, pa_iter_info s, ?_, ?_, ?_, h4⟩
        · show (pa_iter s).1.cb_data.pos = _
          rw [h1, if_pos hpos]
          rw [wrap_mod D _ (by omega) (by omega)]
          ring
        · intro c hc
          rw [List.mem_singleton.mp hc, h3]
          simp only
          omega
        · simp only [List.map_cons, List.map_nil, List.sum_cons, List.sum_nil, h3]
          ring
    · rw [pa_loop_exit fuel s hpos]
      have h0 : s.size = 0 := by omega
      refine ⟨(s, []), rfl, h0, rfl, ?_, ?_, ?_, ?_⟩
      · show s.cb_data.pos = _
        rw [if_neg (by omega)]
      · intro c hc
        cases hc
      · simp [h0]
      · show s.cursor = _
        rw [h0]; ring

theorem wrap_succ (D x : Int) (hD : 0 < D) :
    (x - 1) % D + 1 = if x % D = 0 then D else x % D := by
  have hr0 := Int.emod_nonneg x (ne_of_gt hD)
  have hr1 := Int.emod_lt_of_pos x hD
  have hx := Int.emod_add_ediv x D
  split_ifs with h
  · have e : x - 1 = (D - 1) + D * (x / D - 1) := by
      rw [h] at hx
      linarith
    rw [e, Int.add_mul_emod_self_left, wrap_mod D _ (by omega) (by omega)]
    ring
  · have e : x - 1 = (x % D - 1) + D * (x / D) := by linarith
    rw [e, Int.add_mul_emod_self_left, wrap_mod D (x % D - 1) (by omega) (by omega)]
    ring

/-! ## Agreement of the two embeddings inside the range of `int` -/

theorem wrap32_id (x : Int) (h0 : -2147483648 ≤ x) (h1 : x < 2147483648) : wrap32 x = x := by
  unfold wrap32
  omega

theorem pa_iter32_eq (s : CbState) (hp0 : 0 ≤ s.cb_data.pos)
    (hp1 : s.cb_data.pos ≤ s.cb_data.sf_info.frames)
    (hD : s.cb_data.sf_info.frames < 2147483648) (hs0 : 0 < s.size)
    (hs1 : s.size < 2147483648) : pa_iter32 s = pa_iter s := by
  have e1 : wrap32 (s.cb_data.sf_info.frames - s.cb_data.pos) =
      s.cb_data.sf_info.frames - s.cb_data.pos := wrap32_id _ (by omega) (by omega)
  by_cases hw : s.size > s.cb_data.sf_info.frames - s.cb_data.pos
  · simp only [pa_iter32, pa_iter, e1, if_pos hw]
    rw [wrap32_id (s.size - (s.cb_data.sf_info.frames - s.cb_data.pos)) (by omega) (by omega)]
  · simp only [pa_iter32, pa_iter, e1, if_neg hw]
    rw [wrap32_id (s.cb_data.pos + s.size) (by omega) (by omega),
      wrap32_id (s.size - s.size) (by omega) (by omega)]

theorem pa_loop32_eq :
    ∀ (fuel : Nat) (s : CbState), 0 ≤ s.cb_data.pos →
      s.cb_data.pos ≤ s.cb_data.sf_info.frames → s.cb_data.sf_info.frames < 2147483648 →
      0 ≤ s.size → s.size < 2147483648 → pa_loop32 fuel s = pa_loop fuel s := by
  intro fuel
  induction fuel with
  | zero => intro s _ _ _ _ _; rfl
  | succ fuel ih =>
    intro s hp0 hp1 hD hs0 hs1
    by_cases hs : s.size > 0
    · have hr : 0 ≤ (pa_iter s).1.cb_data.pos ∧
          (pa_iter s).1.cb_data.pos ≤ (pa_iter s).1.cb_data.sf_info.frames := by
        rw [pa_iter_info, pa_iter_pos]
        split_ifs <;> omega
      have hsz : 0 ≤ (pa_iter s).1.size ∧ (pa_iter s).1.size < 2147483648 := by
        rw [pa_iter_size]
        split_ifs <;> omega
      simp only [pa_loop32, pa_loop, if_pos hs]
      rw [pa_iter32_eq s hp0 hp1 hD hs hs1,
        ih (pa_iter s).1 hr.1 hr.2 (by rw [pa_iter_info]; exact hD) hsz.1 hsz.2]
    · simp only [pa_loop32, pa_loop, if_neg hs]

theorem pa_callback32_eq (fuel : Nat) (data : pa_data) (out : Int → Int) (N : Int)
    (hp0 : 0 ≤ data.pos) (hp1 : data.pos ≤ data.sf_info.frames)
    (hD : data.sf_info.frames < 2147483648) (hN0 : 0 ≤ N) (hN1 : N < 2147483648) :
    pa_callback32 fuel data out N = pa_callback fuel data out N := by
  unfold pa_callback32 pa_callback
  rw [wrap32_id N (by omega) hN1]
  exact pa_loop32_eq fuel _ hp0 hp1 hD hN0 hN1

/-! ## Claims about the callback -/

/-- C2, as stated, fails in three ways. With a source of 10 frames, position 0 and a
request of 10 frames the single iteration takes the branch `pos += read` and the callback
leaves `pos = 10`, the frame count itself, while `(0 + 10) mod 10 = 0`. With a source of
`2^31` frames, position 0 and a request of 64 frames, `frames_left` is narrowed to
`-2^31`, `read` takes that value and `pos` is stored as 0, while `(0 + 64) mod 2^31 = 64`.
With a request of `2^31` frames on a source of 10 frames `size` is narrowed to `-2^31`,
the loop body never runs and `pos` stays 0, while `(0 + 2^31) mod 10 = 8`. -/
theorem pos_reaches_frames :
    ((pa_callback32 5 (playing (tone 10 1 10) 0) blank 10).map
        (fun r => (r.1.cb_data.pos, r.2)) = some (10, [(0, 10)]) ∧
      ((0 : Int) + 10) % 10 = 0) ∧
    ((pa_callback32 5 (playing (tone 2147483648 1 10) 0) blank 64).map
        (fun r => (r.1.cb_data.pos, r.2)) = some (0, [(0, -2147483648)]) ∧
      ((0 : Int) + 64) % 2147483648 = 64) ∧
    ((pa_callback32 5 (playing (tone 10 1 10) 0) blank 2147483648).map
        (fun r => (r.1.cb_data.pos, r.2)) = some (0, []) ∧
      ((0 : Int) + 2147483648) % 10 = 8) := by
  decide

/-- C2, amended: for every source of `D` frames with `0 < D < 2^31`, every start position
`0 <= p < D` and every request `0 <= N < 2^31`, the callback (with the C integer types)
returns (any bound above `N` loop tests suffices) and the stored `pos` is congruent to
`p + N` modulo `D` and lies in `0 .. D`: it equals `(p + N) mod D`, except that it equals
`D` when `N > 0` and `p + N` is a multiple of `D` (the reset to 0 is then made by the next
loop iteration). -/
theorem pos_after_callback (data : pa_data) (out : Int → Int) (N : Int) (fuel : Nat)
    (hD : 0 < data.sf_info.frames) (hDmax : data.sf_info.frames < 2147483648)
    (hp0 : 0 ≤ data.pos) (hp1 : data.pos < data.sf_info.frames)
    (hN : 0 ≤ N) (hNmax : N < 2147483648) (hfuel : N < (fuel : Int)) :
    ∃ r, pa_callback32 fuel data out N = some r ∧
      r.1.cb_data.pos =
        (if 0 < N ∧ (data.pos + N) % data.sf_info.frames = 0 then data.sf_info.frames
         else (data.pos + N) % data.sf_info.frames) ∧
      r.1.cb_data.pos % data.sf_info.frames = (data.pos + N) % data.sf_info.frames ∧
      0 ≤ r.1.cb_data.pos ∧ r.1.cb_data.pos ≤ data.sf_info.frames := by
  rw [pa_callback32_eq fuel data out N hp0 (le_of_lt hp1) hDmax hN hNmax]
  obtain ⟨r, hr, -, -, hrp, -, -, -⟩ :=
    pa_loop_spec data.sf_info.frames hD fuel
      { cb_data := data, out := out, cursor := 0, size := N } rfl hp0 (le_of_lt hp1) hN
      (by simp only [if_neg (ne_of_lt hp1)]; omega)
  simp only at hrp
  have hm0 := Int.emod_nonneg (data.pos + N) (ne_of_gt hD)
  have hm1 := Int.emod_lt_of_pos (data.pos + N) hD
  have key : r.1.cb_data.pos =
      (if 0 < N ∧ (data.pos + N) % data.sf_info.frames = 0 then data.sf_info.frames
       else (data.pos + N) % data.sf_info.frames) := by
    rw [hrp]
    by_cases hN0 : 0 < N
    · rw [if_pos hN0, wrap_succ _ _ hD]
      by_cases hz : (data.pos + N) % data.sf_info.frames = 0
      · rw [if_pos hz, if_pos ⟨hN0, hz⟩]
      · rw [if_neg hz, if_neg (fun h => hz h.2)]
    · have hN' : N = 0 := by omega
      rw [if_neg hN0, if_neg (fun h => hN0 h.1), hN', add_zero, wrap_mod _ _ hp0 hp1]
  refine ⟨r, hr, key, ?_, ?_, ?_⟩
  · rw [key]
    split_ifs with h
    · rw [Int.emod_self, h.2]
    · exact Int.emod_emod_of_dvd _ (dvd_refl _)
  · rw [key]; split_ifs <;> omega
  · rw [key]; split_ifs <;> omega

theorem pos_after_callback_witness :
    (0 : Int) < (playing (tone 100 1 10) 80).sf_info.frames ∧
    (playing (tone 100 1 10) 80).sf_info.frames < 2147483648 ∧
    (0 : Int) ≤ (playing (tone 100 1 10) 80).pos ∧
    (playing (tone 100 1 10) 80).pos < (playing (tone 100 1 10) 80).sf_info.frames ∧
    (∃ r, pa_callback32 31 (playing (tone 100 1 10) 80) blank 30 = some r ∧
      r.1.cb_data.pos =
        (if (0 : Int) < 30 ∧
            ((playing (tone 100 1 10) 80).pos + 30) %
              (playing (tone 100 1 10) 80).sf_info.frames = 0
          then (playing (tone 100 1 10) 80).sf_info.frames
          else ((playing (tone 100 1 10) 80).pos + 30) %
            (playing (tone 100 1 10) 80).sf_info.frames) ∧
      r.1.cb_data.pos % (playing (tone 100 1 10) 80).sf_info.frames =
        ((playing (tone 100 1 10) 80).pos + 30) %
          (playing (tone 100 1 10) 80).sf_info.frames ∧
      0 ≤ r.1.cb_data.pos ∧
      r.1.cb_data.pos ≤ (playing (tone 100 1 10) 80).sf_info.frames) ∧
    (pa_callback32 31 (playing (tone 100 1 10) 80) blank 30).map (fun r => r.1.cb_data.pos) =
      some 10 :=
  ⟨by decide, by decide, by decide, by decide,
    pos_after_callback (playing (tone 100 1 10) 80) blank 30 31 (by decide) (by decide)
      (by decide) (by decide) (by decide) (by decide) (by decide),
    by decide⟩

/-- C8, as stated, fails for frame counts and requests outside the range of `int`. With a
source of `2^31` frames, position 0 and a request of 64 frames, line 83 narrows
`frames_left` to `-2^31`; the only chunk passed to `sf_readf_int` is `-2^31`, which is
negative, and the chunk lengths do not sum to 64. With a request of `2^31` frames on a
source of 10 frames `size` is narrowed to `-2^31`, no chunk is read and the sum is 0. -/
theorem chunk_narrowed_negative :
    ((pa_callback32 5 (playing (tone 2147483648 1 10) 0) blank 64).map (fun r => r.2) =
        some [(0, -2147483648)] ∧
      ¬ ((0 : Int) ≤ -2147483648) ∧
      (pa_callback32 5 (playing (tone 2147483648 1 10) 0) blank 64).map
        (fun r => (r.2.map Prod.snd).sum) ≠ some 64) ∧
    ((pa_callback32 5 (playing (tone 10 1 10) 0) blank 2147483648).map
        (fun r => (r.2, (r.2.map Prod.snd).sum)) = some ([], 0)) := by
  decide

/-- C8, amended: for every source of `D` frames with `0 < D < 2^31`, every start position
`0 <= p <= D` and every request `0 <= n < 2^31`, the loop of `pa_callback` (with the C
integer types) terminates (any bound above `n + 1` loop tests suffices) with `size == 0`;
every chunk length passed to `sf_readf_int` is `>= 0` and at most `D` minus the position
used for the seek, and the chunk lengths sum to exactly `n`. -/
theorem callback_chunks (data : pa_data) (out : Int → Int) (n : Int) (fuel : Nat)
    (hD : 0 < data.sf_info.frames) (hDmax : data.sf_info.frames < 2147483648)
    (hp0 : 0 ≤ data.pos) (hp1 : data.pos ≤ data.sf_info.frames)
    (hn : 0 ≤ n) (hnmax : n < 2147483648) (hfuel : n + 1 < (fuel : Int)) :
    ∃ r, pa_callback32 fuel data out n = some r ∧ r.1.size = 0 ∧
      (∀ c ∈ r.2, 0 ≤ c.2 ∧ c.2 ≤ data.sf_info.frames - c.1) ∧
      (r.2.map Prod.snd).sum = n := by
  rw [pa_callback32_eq fuel data out n hp0 hp1 hDmax hn hnmax]
  obtain ⟨r, hr, hr0, -, -, hrc, hrs, -⟩ :=
    pa_loop_spec data.sf_info.frames hD fuel
      { cb_data := data, out := out, cursor := 0, size := n } rfl hp0 hp1 hn
      (by simp only; split_ifs <;> omega)
  exact ⟨r, hr, hr0, fun c hc => ⟨(hrc c hc).2.2.1, (hrc c hc).2.2.2⟩, hrs⟩

theorem callback_chunks_witness :
    (0 : Int) < (playing (tone 100 1 10) 100).sf_info.frames ∧
    (playing (tone 100 1 10) 100).sf_info.frames < 2147483648 ∧
    (0 : Int) ≤ (playing (tone 100 1 10) 100).pos ∧
    (playing (tone 100 1 10) 100).pos ≤ (playing (tone 100 1 10) 100).sf_info.frames ∧
    (∃ r, pa_callback32 252 (playing (tone 100 1 10) 100) blank 250 = some r ∧
      r.1.size = 0 ∧
      (∀ c ∈ r.2, 0 ≤ c.2 ∧ c.2 ≤ (playing (tone 100 1 10) 100).sf_info.frames - c.1) ∧
      (r.2.map Prod.snd).sum = 250) ∧
    (pa_callback32 252 (playing (tone 100 1 10) 100) blank 250).map (fun r => r.2) =
      some [(100, 0), (0, 100), (0, 100), (0, 50)] :=
  ⟨by decide, by decide, by decide, by decide,
    callback_chunks (playing (tone 100 1 10) 100) blank 250 252 (by decide) (by decide)
      (by decide) (by decide) (by decide) (by decide) (by decide),
    by decide⟩

/-- C4, as stated, fails: after `init_audio` on a file of 100 frames at 10 frames per
second, `seek_seconds(8)` stores `time = 8` but `audio_data.pos` stays 0, and the next
callback for 30 frames reads frames `[0..30)` from position 0, not from frame 80, and
leaves `pos = 30`, not 10. -/
theorem seek_not_observed :
    sought8.current_song.time = 8 ∧
    sought8.audio_data.sf_info.frames = 100 ∧
    sought8.audio_data.sf_info.samplerate = 10 ∧
    sought8.audio_data.pos = 0 ∧
    (pa_callback 5 sought8.audio_data blank 30).map (fun r => (r.1.cb_data.pos, r.2)) =
      some (30, [(0, 30)]) ∧
    (pa_callback 5 sought8.audio_data blank 30).map (fun r => (r.1.cb_data.pos, r.2)) ≠
      some (10, [(80, 20), (0, 10)]) := by
  decide

/-- C4, amended: `seek_seconds(s)` writes only `current_song.time` and leaves `audio_data`
as it was, so the next `pa_callback` invocation gives the same result as without the seek:
its first iteration seeks the source to the engine's own `audio_data.pos`, whatever `s` is.
With a duration of 100 frames and the engine position at 80, a request of 30 frames reads
`[80..100)` then `[0..10)` and leaves the position at 10. -/
theorem seek_leaves_engine :
    (∀ (g : Globals) (sec : Int), (seek_seconds sec g).audio_data = g.audio_data) ∧
    (∀ (g : Globals) (sec : Int) (fuel : Nat) (out : Int → Int) (N : Int),
      pa_callback fuel (seek_seconds sec g).audio_data out N =
        pa_callback fuel g.audio_data out N) ∧
    (∀ (g : Globals) (sec : Int) (out : Int → Int) (N : Int),
      (pa_iter { cb_data := (seek_seconds sec g).audio_data, out := out, cursor := 0,
                 size := N }).2.1 = g.audio_data.pos) ∧
    sought8_at80.current_song.time = 8 ∧
    sought8_at80.audio_data.pos = 80 ∧
    (pa_callback 5 sought8_at80.audio_data blank 30).map (fun r => (r.1.cb_data.pos, r.2)) =
      some (10, [(80, 20), (0, 10)]) :=
  ⟨fun _ _ => rfl, fun _ _ _ _ _ => rfl, fun _ _ _ _ => rfl, by decide, by decide, by decide⟩

/-! ## Buffer content -/

/-- C1 fails on the code for two channels: source of 4 stereo frames
`(10,11) (20,21) (30,31) (40,41)`, `pos = 3` (`k = 1`), request of `N = 2` frames. The
calls are right (1 frame at position 3, then 1 frame at position 0), but `cursor` is
advanced by `read` cells, not `read * channels`, so the second read starts at cell 1: the
buffer holds `40, 10, 11` and cell 3 keeps its old content, where the looping property
asks for `40, 41, 10, 11`. -/
theorem stereo_wrap_overwrites :
    (pa_callback 5 (playing (tone 4 2 10) 3) blank 2).map
        (fun r => (r.2, r.1.cursor, [r.1.out 0, r.1.out 1, r.1.out 2, r.1.out 3])) =
      some ([(3, 1), (0, 1)], 2, [40, 10, 11, -1]) ∧
    [spec_looped_output (tone 4 2 10) 1 0, spec_looped_output (tone 4 2 10) 1 1,
      spec_looped_output (tone 4 2 10) 1 2, spec_looped_output (tone 4 2 10) 1 3] = [40, 41, 10, 11] ∧
    blank 3 = -1 := by
  decide

theorem pa_iter_mono (s : CbState) (smp : Int → Int) (hh : handle_of s smp)
    (hc : s.cb_data.sf_info.channels = 1) (h0 : 0 ≤ s.cb_data.pos)
    (h1 : s.cb_data.pos ≤ s.cb_data.sf_info.frames) (hs : 0 < s.size) :
    handle_of (pa_iter s).1 smp ∧
    ∀ i, (pa_iter s).1.out i =
      if s.cursor ≤ i ∧ i < s.cursor + (pa_iter s).2.2 then smp (s.cb_data.pos + (i - s.cursor))
      else s.out i := by
  obtain ⟨off, hoff⟩ := hh
  have hseek : sf_seek s.cb_data.sndfile s.cb_data.pos =
      some { info := s.cb_data.sf_info, samples := smp, offset := s.cb_data.pos } := by
    rw [hoff]
    simp only [sf_seek]
    rw [if_pos ⟨h0, h1⟩]
  have hn : max 0 (min (pa_iter s).2.2 (s.cb_data.sf_info.frames - s.cb_data.pos)) =
      (pa_iter s).2.2 := by
    rw [pa_iter_call]
    simp only
    split_ifs <;> omega
  constructor
  · refine ⟨s.cb_data.pos + (pa_iter s).2.2, ?_⟩
    rw [pa_iter_info]
    show (sf_readf_int (sf_seek s.cb_data.sndfile s.cb_data.pos) s.out s.cursor
      (pa_iter s).2.2).1 = _
    rw [hseek]
    simp only [sf_readf_int]
    rw [hn]
  · intro i
    show (sf_readf_int (sf_seek s.cb_data.sndfile s.cb_data.pos) s.out s.cursor
      (pa_iter s).2.2).2.1 i = _
    rw [hseek]
    simp only [sf_readf_int]
    rw [hn, hc, mul_one, mul_one]

theorem pa_loop_mono (D : Int) (hD : 0 < D) (smp : Int → Int) :
    ∀ (fuel : Nat) (s : CbState), s.cb_data.sf_info.frames = D →
      s.cb_data.sf_info.channels = 1 → handle_of s smp →
      0 ≤ s.cb_data.pos → s.cb_data.pos ≤ D → 0 ≤ s.size →
      s.size + (if s.cb_data.pos = D then 1 else 0) < (fuel : Int) →
      ∃ r, pa_loop fuel s = some r ∧
        (∀ i, 0 ≤ i → i < s.size → r.1.out (s.cursor + i) = smp ((s.cb_data.pos + i) % D)) ∧
        (∀ j, j < s.cursor ∨ s.cursor + s.size ≤ j → r.1.out j = s.out j) := by
  intro fuel
  induction fuel with
  | zero =>
    intro s _ _ _ _ _ hs hf
    exfalso
    split_ifs at hf <;> simp at hf <;> omega
  | succ fuel ih =>
    intro s hfr hch hh hp0 hp1 hs hf
    by_cases hpos : s.size > 0
    · rw [pa_loop_next fuel s hpos]
      obtain ⟨hh1, hout⟩ := pa_iter_mono s smp hh hch hp0 (by rw [hfr]; exact hp1) hpos
      by_cases hw : s.size > s.cb_data.sf_info.frames - s.cb_data.pos
      · have h1 : (pa_iter s).1.cb_data.pos = 0 := by rw [pa_iter_pos, if_pos hw]
        have h2 : (pa_iter s).1.size = s.size - (D - s.cb_data.pos) := by
          rw [pa_iter_size, if_pos hw, hfr]
        have h3 : (pa_iter s).2.2 = D - s.cb_data.pos := by
          rw [pa_iter_call, if_pos hw, hfr]
        have h4 : (pa_iter s).1.cursor = s.cursor + (D - s.cb_data.pos) := by
          rw [pa_iter_cursor, h3]
        have hf1 : (pa_iter s).1.size +
            (if (pa_iter s).1.cb_data.pos = D then 1 else 0) < (fuel : Int) := by
          rw [h1, h2, if_neg (by omega)]
          push_cast at hf
          split_ifs at hf <;> omega
        obtain ⟨r, hr, hin, hout1⟩ :=
          ih (pa_iter s).1 (by rw [pa_iter_info]; exact hfr) (by rw [pa_iter_info]; exact hch)
            hh1 (by omega) (by omega) (by omega) hf1
        refine ⟨(r.1, (pa_iter s).2 :: r.2), by rw [hr]; rfl, ?_, ?_⟩
        · intro i hi0 hi1
          show r.1.out (s.cursor + i) = _
          by_cases hi : i < D - s.cb_data.pos
          · rw [hout1 _ (Or.inl (by rw [h4]; omega)), hout, h3, if_pos ⟨by omega, by omega⟩,
              wrap_mod D _ (by omega) (by omega)]
            congr 1
            ring
          · have e1 : s.cursor + i = (pa_iter s).1.cursor + (i - (D - s.cb_data.pos)) := by
              rw [h4]; ring
            have e2 : s.cb_data.pos + i = ((pa_iter s).1.cb_data.pos +
                (i - (D - s.cb_data.pos))) + D := by
              rw [h1]; ring
            rw [e1, hin _ (by omega) (by rw [h2]; omega), e2, wrap_shift]
        · intro j hj
          show r.1.out j = _
          rw [hout1 j (by rw [h4, h2]; omega), hout, h3, if_neg (by omega)]
      · have h2 : (pa_iter s).1.size = 0 := by rw [pa_iter_size, if_neg hw]
        have h3 : (pa_iter s).2.2 = s.size := by rw [pa_iter_call, if_neg hw]
        obtain ⟨k, rfl⟩ : ∃ k, fuel = k + 1 := by
          refine ⟨fuel - 1, ?_⟩
          push_cast at hf
          split_ifs at hf <;> omega
        rw [pa_loop_exit k _ (by rw [h2]; omega)]
        refine ⟨((pa_iter s).1, [(pa_iter s).2]), rfl, ?_, ?_⟩
        · intro i hi0 hi1
          show (pa_iter s).1.out (s.cursor + i) = _
          rw [hout, h3, if_pos ⟨by omega, by omega⟩, wrap_mod D _ (by omega) (by omega)]
          congr 1
          ring
        · intro j hj
          show (pa_iter s).1.out j = _
          rw [hout, h3, if_neg (by omega)]
    · rw [pa_loop_exit fuel s hpos]
      exact ⟨(s, []), rfl, fun i hi0 hi1 => by omega, fun j _ => rfl⟩

/-- For one channel the looping property holds on the code: for every mono source of
`D > 0` frames and every `0 < k < N` with `k <= D`, the callback entered at `pos = D - k`
for `N` frames returns and leaves in cells `0 .. N-1` the last `k` frames followed by the
frames read from offset 0, and writes no other cell. -/
theorem mono_loop_content (f : SNDFILE) (out : Int → Int) (k N : Int) (fuel : Nat)
    (hc : f.info.channels = 1) (hD : 0 < f.info.frames) (hk0 : 0 < k) (hkN : k < N)
    (hkD : k ≤ f.info.frames) (hfuel : N < (fuel : Int)) :
    ∃ r, pa_callback fuel (playing f (f.info.frames - k)) out N = some r ∧
      (∀ i, 0 ≤ i → i < N * f.info.channels → r.1.out i = spec_looped_output f k i) ∧
      (∀ j, j < 0 ∨ N * f.info.channels ≤ j → r.1.out j = out j) := by
  obtain ⟨r, hr, hin, hout⟩ :=
    pa_loop_mono f.info.frames hD f.samples fuel
      { cb_data := playing f (f.info.frames - k), out := out, cursor := 0, size := N }
      rfl hc ⟨f.offset, rfl⟩ (by show 0 ≤ f.info.frames - k; omega)
      (by show f.info.frames - k ≤ _; omega) (by show 0 ≤ N; omega)
      (by
        show N + (if f.info.frames - k = f.info.frames then 1 else 0) < (fuel : Int)
        rw [if_neg (by omega)]; omega)
  refine ⟨r, hr, ?_, ?_⟩
  · intro i hi0 hi1
    rw [hc, mul_one] at hi1
    have h := hin i hi0 hi1
    simp only [zero_add] at h
    rw [h]
    show f.samples ((f.info.frames - k + i) % f.info.frames) = _
    unfold spec_looped_output
    rw [hc, mul_one, mul_one, mul_one]
    split_ifs with hik
    · rw [wrap_mod _ _ (by omega) (by omega)]
    · have e : f.info.frames - k + i = (i - k) + f.info.frames := by ring
      rw [e, wrap_shift]
  · intro j hj
    rw [hc, mul_one] at hj
    exact hout j (by simpa using hj)

theorem mono_loop_content_witness :
    (tone 100 1 10).info.channels = 1 ∧ (0 : Int) < (tone 100 1 10).info.frames ∧
    (∃ r, pa_callback 31 (playing (tone 100 1 10) ((tone 100 1 10).info.frames - 20)) blank 30 =
        some r ∧
      (∀ i, 0 ≤ i → i < 30 * (tone 100 1 10).info.channels →
        r.1.out i = spec_looped_output (tone 100 1 10) 20 i) ∧
      (∀ j, j < 0 ∨ 30 * (tone 100 1 10).info.channels ≤ j → r.1.out j = blank j)) ∧
    spec_looped_output (tone 100 1 10) 20 19 = 1000 ∧ spec_looped_output (tone 100 1 10) 20 20 = 10 :=
  ⟨by decide, by decide,
    mono_loop_content (tone 100 1 10) blank 20 30 31 (by decide) (by decide) (by decide)
      (by decide) (by decide) (by decide),
    by decide, by decide⟩

end Cscribe
